import Mathlib

/-!
Shallow embedding of the terminal-graphics protocol layer of `term-image`
(`src/term_image/image/kitty.py` and `src/term_image/image/iterm2.py`).

Bytes are modelled as `List Nat`, byte/character strings as `String` or
`List Char`.  Python's `zlib.compress`/`zlib.decompress` are external
library functions and are passed in as parameters (`zc`, `zd`); everything
else is translated directly from the source.
-/

namespace TermImage

/-- Model of `base64.standard_b64encode`: standard base-64 alphabet, `=`-padded.
Each 3-byte group becomes 4 output characters. -/
def b64Alphabet : List Char :=
  "ABCDEFGHIJKLMNOPQRSTUVWXYZabcdefghijklmnopqrstuvwxyz0123456789+/".toList

def b64Char (n : Nat) : Char := b64Alphabet.getD n 'A'

def b64encode : List Nat → List Char
  | [] => []
  | [b0] => [b64Char (b0 / 4), b64Char (b0 % 4 * 16), '=', '=']
  | [b0, b1] => [b64Char (b0 / 4), b64Char (b0 % 4 * 16 + b1 / 16),
                 b64Char (b1 % 16 * 4), '=']
  | b0 :: b1 :: b2 :: rest =>
      b64Char (b0 / 4) :: b64Char (b0 % 4 * 16 + b1 / 16) ::
      b64Char (b1 % 16 * 4 + b2 / 64) :: b64Char (b2 % 64) :: b64encode rest

/-- Model of `ControlData` (kitty.py): a dataclass of optional protocol keys, in
declaration order `a, f, t, s, v, z, o, C, c, r`.  Defaults are the
dataclass defaults (`a.TRANS_DISP`, `f.RGBA`, `t.DIRECT`, `z.IN_FRONT`,
`o.ZLIB`, `C.STAY`). -/
structure ControlData where
  a : Option String := some "T"
  f : Option Nat := some 32
  t : Option String := some "d"
  s : Option Nat := none
  v : Option Nat := none
  z : Option Int := some 0
  o : Option String := some "z"
  C : Option Nat := some 1
  c : Option Nat := none
  r : Option Nat := none
deriving Repr, DecidableEq

/-- Model of `ControlData.__post_init__`: a PNG pixel format (`f = 100`) forces the
pixel width and height keys to `None`. -/
def postInit (cd : ControlData) : ControlData :=
  if cd.f = some 100 then { cd with s := none, v := none } else cd

/-- Constructing a `ControlData` (dataclass `__init__` followed by
`__post_init__`). -/
def mkControlData (a : Option String := some "T") (f : Option Nat := some 32)
    (t : Option String := some "d") (s : Option Nat := none)
    (v : Option Nat := none) (z : Option Int := some 0)
    (o : Option String := some "z") (C : Option Nat := some 1)
    (c : Option Nat := none) (r : Option Nat := none) : ControlData :=
  postInit ⟨a, f, t, s, v, z, o, C, c, r⟩

/-- Model of `dataclasses.asdict(control).items()` in field order, each value already
rendered through Python `str()`. -/
def controlPairs (cd : ControlData) : List (String × Option String) :=
  [("a", cd.a), ("f", cd.f.map toString), ("t", cd.t),
   ("s", cd.s.map toString), ("v", cd.v.map toString),
   ("z", cd.z.map toString), ("o", cd.o), ("C", cd.C.map toString),
   ("c", cd.c.map toString), ("r", cd.r.map toString)]

/-- The keys actually emitted by `get_control_data` (those whose value is
not `None`), in emission order. -/
def emittedKeys (cd : ControlData) : List String :=
  (controlPairs cd).filterMap (fun kv => kv.2.map (fun _ => kv.1))

/-- Model of `Transmission.get_control_data`:
`",".join(f"{key}={value}" ... if value is not None)`. -/
def getControlData (cd : ControlData) : String :=
  String.intercalate ","
    ((controlPairs cd).filterMap (fun kv => kv.2.map (fun v => kv.1 ++ "=" ++ v)))

/-- Model of `Transmission` (kitty.py): control data plus payload, with the
`_compressed` state flag. -/
structure Transmission where
  control : ControlData
  payload : List Nat
  compressed : Bool
deriving Repr, DecidableEq

/-- Model of `Transmission.compress`, with `zlib.compress` passed as `zc`. -/
def Transmission.compress (zc : List Nat → List Nat) (tr : Transmission) :
    Transmission :=
  if tr.control.t = some "d" ∧ tr.compressed = false then
    { control := { tr.control with o := some "z" },
      payload := zc tr.payload, compressed := true }
  else tr

/-- Model of `Transmission.decompress`, with `zlib.decompress` passed as `zd`. -/
def Transmission.decompress (zd : List Nat → List Nat) (tr : Transmission) :
    Transmission :=
  if tr.control.t = some "d" ∧ tr.compressed = true then
    { control := { tr.control with o := none },
      payload := zd tr.payload, compressed := false }
  else tr

/-- Model of `Transmission.__init__` plus `__post_init__`: `_compressed = False`, then
compress immediately when the control data requests zlib (`o == o.ZLIB`). -/
def mkTransmission (zc : List Nat → List Nat) (cd : ControlData)
    (p : List Nat) : Transmission :=
  let t0 : Transmission := ⟨cd, p, false⟩
  if cd.o = some "z" then t0.compress zc else t0

/-- One escape sequence yielded by `Transmission.get_chunks`: the first
carries the serialized control data (`control = some _`), the others only
the continuation flag `m`. -/
structure KChunk where
  control : Option String
  m : Bool
  data : List Char
deriving Repr, DecidableEq

/-- The f-strings of `get_chunks` rendered to the wire format. -/
def renderKChunk (ch : KChunk) : String :=
  match ch.control with
  | some cdStr =>
      "\x1b_G" ++ cdStr ++ ",m=" ++ (if ch.m then "1" else "0") ++ ";" ++
      String.mk ch.data ++ "\x1b\\"
  | none =>
      "\x1b_Gm=" ++ (if ch.m then "1" else "0") ++ ";" ++
      String.mk ch.data ++ "\x1b\\"

/-- The loop of `get_chunks` after the first `yield`: state is the current
`chunk` and the unread rest of the payload stream (`next_chunk` is
`rest.take size`). -/
def chunkTail (size : Nat) (chunk rest : List Char) : List KChunk :=
  if h : rest.take size = [] then
    if chunk = [] then [] else [⟨none, false, chunk⟩]
  else
    ⟨none, true, chunk⟩ :: chunkTail size (rest.take size) (rest.drop size)
termination_by rest.length
decreasing_by
  have h2 : 0 < (rest.take size).length := List.length_pos.mpr h
  simp only [List.length_take, List.length_drop] at h2 ⊢
  omega

/-- Model of `Transmission.get_chunks(size)`: base64-encode the payload, read it in
`size`-character slices; the first yield carries the full control data and
`m = 1` exactly when a further slice exists. -/
def Transmission.get_chunks (size : Nat) (tr : Transmission) : List KChunk :=
  let payload := b64encode tr.payload
  let chunk := payload.take size
  let rest := payload.drop size
  let nxt := rest.take size
  ⟨some (getControlData tr.control), !nxt.isEmpty, chunk⟩ ::
    chunkTail size nxt (rest.drop size)

/-- Model of `Transmission.get_chunked`: the chunks joined into one string
(default chunk size 4096). -/
def Transmission.get_chunked (tr : Transmission) : String :=
  String.join ((tr.get_chunks 4096).map renderKChunk)

/-! ### The Lines render method (`KittyImage._render_image` /
`KittyImage._render_image_lines`) -/

/-- The height-padding step of `_render_image`:
`extra = height % (r_height or 1); if extra: height = height - extra + r_height`. -/
def paddedHeight (height rHeight : Nat) : Nat :=
  let extra := height % (if rHeight = 0 then 1 else rHeight)
  if extra ≠ 0 then height - extra + rHeight else height

/-- The successive `raw_image.read(bytes_per_line)` calls of
`_render_image_lines`: `n` reads of `bpl` bytes from the stream. -/
def readBands (raw : List Nat) (bpl : Nat) : Nat → List (List Nat)
  | 0 => []
  | n + 1 => raw.take bpl :: readBands (raw.drop bpl) bpl n

/-- Model of `bytes_per_line = control_data.s * cell_height * (control_data.f // 8)`. -/
def bytesPerLine (cd : ControlData) (cellHeight : Nat) : Nat :=
  cd.s.getD 0 * cellHeight * (cd.f.getD 0 / 8)

/-- The control data used for every per-line transmission:
`vars(control_data).update(dict(v=cell_height, r=1))`. -/
def lineControlData (cd : ControlData) (cellHeight : Nat) : ControlData :=
  { cd with v := some cellHeight, r := some 1 }

/-- The sequence of per-line `Transmission`s constructed by
`_render_image_lines` (one per band read from the raw pixel stream). -/
def lineTransmissions (zc : List Nat → List Nat) (raw : List Nat)
    (cd : ControlData) (height rHeight : Nat) : List Transmission :=
  let cellHeight := height / rHeight
  (readBands raw (bytesPerLine cd cellHeight) rHeight).map
    (mkTransmission zc (lineControlData cd cellHeight))

/-- Model of the `a=d,d=c`-based pre-clear written before each band when
`control_data.z is None`. -/
def kittyClearSeq (cols : Nat) : String :=
  let del := "\x1b_Ga=d,d=c;\x1b\\"
  del ++ "\x1b7\x1b[" ++ toString cols ++ "C" ++ del ++ "\x1b8"

/-- Model of `KittyImage._render_image_lines`: each band is written as
`[clear]chunked`, successive bands are joined by `fill ++ "\n"`, and a
final `fill` closes the output. -/
def renderImageLines (zc : List Nat → List Nat) (raw : List Nat)
    (cd : ControlData) (height rHeight : Nat) : String :=
  let fill := String.mk (List.replicate (cd.c.getD 0) ' ')
  let clear := if cd.z = none then kittyClearSeq (cd.c.getD 0) else ""
  String.intercalate (fill ++ "\n")
    ((lineTransmissions zc raw cd height rHeight).map
      (fun tr => clear ++ tr.get_chunked)) ++ fill

/-! ### Version parsing and Python tuple ordering -/

/-- Python `int(s)` on a digit string (an optional sign followed by one or
more decimal digits); `none` models a raised `ValueError`. -/
def digitsToNat : List Char → Option Nat
  | [] => none
  | cs =>
      if cs.all Char.isDigit then
        some (cs.foldl (fun n c => n * 10 + (c.toNat - 48)) 0)
      else none

def parseInt : List Char → Option Int
  | '-' :: rest => (digitsToNat rest).map (fun n => -(n : Int))
  | '+' :: rest => (digitsToNat rest).map (fun n => (n : Int))
  | cs => (digitsToNat cs).map (fun n => (n : Int))

/-- Python `str.split(".")`: the segments between the dots, keeping empty
segments (and yielding one empty segment for the empty string). -/
def splitOnDot : List Char → List (List Char)
  | [] => [[]]
  | ch :: rest =>
      if ch = '.' then [] :: splitOnDot rest
      else
        match splitOnDot rest with
        | [] => [[ch]]
        | g :: gs => (ch :: g) :: gs

/-- Model of `tuple(map(int, version.split(".")))`; `none` models the `ValueError`
raised by `int` on a malformed segment. -/
def parseVersion (s : String) : Option (List Int) :=
  (splitOnDot s.toList).mapM parseInt

/-- Python `str.lower()`/`str.casefold()` restricted to ASCII (the vendor
names matched by the identification regex are ASCII words). -/
def pyLower (s : String) : String :=
  String.mk (s.toList.map
    (fun ch => if 65 ≤ ch.toNat ∧ ch.toNat ≤ 90 then Char.ofNat (ch.toNat + 32)
               else ch))

/-- Python's lexicographic `<` on tuples of integers (a strict prefix is
smaller). -/
def pyListLt : List Int → List Int → Bool
  | [], [] => false
  | [], _ :: _ => true
  | _ :: _, [] => false
  | x :: xs, y :: ys => x < y || (x = y && pyListLt xs ys)

/-- Python's `>=` on tuples of integers. -/
def pyListGe (x y : List Int) : Bool := !pyListLt x y

/-! ### Capability detection (`is_supported`) -/

/-- The part of a byte string before its last ESC byte
(`response.rpartition(b"\x1b")[0]`; empty when there is no ESC). -/
def beforeLastEsc (s : List Char) : List Char :=
  ((s.reverse.dropWhile (fun ch => ch ≠ '\x1b')).drop 1).reverse

/-- The value stored in `KittyImage._supported`: Python's
`response and (...)` keeps the empty bytes object itself when the response
is empty, and a real boolean otherwise. -/
inductive PyBoolish where
  | emptyBytes
  | pybool (b : Bool)
deriving Repr, DecidableEq

/-- Python truthiness of the stored value. -/
def PyBoolish.truthy : PyBoolish → Bool
  | .emptyBytes => false
  | .pybool b => b

/-- The class-level state read and written by `KittyImage.is_supported`. -/
structure KittyState where
  supported : Option PyBoolish
  kittyVersion : List Int
  konsoleVersion : List Int
deriving Repr, DecidableEq

/-- Result of one `KittyImage.is_supported` call: the returned value, the
class state afterwards, and how many terminal queries were written. -/
structure KittyCall where
  value : PyBoolish
  state : KittyState
  queries : Nat
deriving Repr, DecidableEq

/-- Outcome of a `KittyImage.is_supported` call: either a normal return or
an uncaught exception (`raised` models a propagating `ValueError`). -/
inductive KittyOutcome where
  | raised
  | ok (call : KittyCall)
deriving Repr, DecidableEq

/-- The success reply to the kitty graphics probe:
`f"{_START}i=31;OK{_END}"`. -/
def kittyExpectedOk : String := "\x1b_Gi=31;OK\x1b\\"

/-- Model of `KittyImage.is_supported`.  `probeResp` is what `query_terminal`
accumulated for the graphics probe (empty on timeout); `idReply` is the
match result of the identification regex `\x1bP>\|(\w+)[( ]?([^)\x1b]+)\)?\x1b\\`
on the second response (`none` when it does not match).  A `.raised`
result models an uncaught `ValueError` from `int()`. -/
def KittyImage.is_supported (st : KittyState) (probeResp : String)
    (idReply : Option (String × String)) : KittyOutcome :=
  match st.supported with
  | some v => .ok ⟨v, st, 0⟩
  | none =>
    let sup1 : PyBoolish :=
      if probeResp = "" then .emptyBytes
      else .pybool (String.mk (beforeLastEsc probeResp.toList) = kittyExpectedOk)
    if sup1.truthy then
      let verUpdate : Option KittyState :=
        match idReply with
        | some (name, version) =>
            if pyLower name = "kitty" then
              match parseVersion version with
              | some ver => some { st with kittyVersion := ver }
              | none => none
            else if pyLower name = "konsole" then
              match parseVersion version with
              | some ver => some { st with konsoleVersion := ver }
              | none => none
            else some st
        | none => some st
      match verUpdate with
      | none => .raised
      | some st1 =>
          let sup := pyListGe st1.kittyVersion [0, 20, 0] ||
                     pyListGe st1.konsoleVersion [22, 4, 0]
          .ok ⟨.pybool sup, { st1 with supported := some (.pybool sup) }, 2⟩
    else
      .ok ⟨sup1, { st with supported := some sup1 }, 1⟩

/-- The class-level state read and written by `ITerm2Image.is_supported`. -/
structure ITerm2State where
  supported : Option Bool
  term : String
  termVersion : String
deriving Repr, DecidableEq

/-- Result of one `ITerm2Image.is_supported` call (the Python return value
is `cls._supported`, which may still be `None`). -/
structure ITerm2Call where
  value : Option Bool
  state : ITerm2State
  queries : Nat
deriving Repr, DecidableEq

/-- Model of `ITerm2Image.is_supported`.  `respNonempty` is the truthiness of the
decoded response (false on timeout); `idReply` is the match result of
`\x1bP>\|(\w+)[( ]([^\x1b]+)\)?\x1b\\` on the part of the response before
its last ESC (`none` when it does not match). -/
def ITerm2Image.is_supported (st : ITerm2State) (respNonempty : Bool)
    (idReply : Option (String × String)) : ITerm2Call :=
  match st.supported with
  | some b => ⟨some b, st, 0⟩
  | none =>
    if respNonempty then
      match idReply with
      | some (name, version) =>
          if pyLower name ∈ ["iterm2", "konsole", "wezterm"] then
            if pyLower name = "konsole" then
              match parseVersion version with
              | some ver =>
                  if pyListLt ver [22, 4, 0] then
                    ⟨some false, { st with supported := some false }, 1⟩
                  else
                    ⟨some true, ⟨some true, pyLower name, pyLower version⟩, 1⟩
              | none => ⟨some false, { st with supported := some false }, 1⟩
            else ⟨some true, ⟨some true, pyLower name, pyLower version⟩, 1⟩
          else ⟨none, st, 1⟩
      | none => ⟨none, st, 1⟩
    else ⟨some false, { st with supported := some false }, 1⟩

/-! ### Animation z-index handling (`KittyImage._display_animated`) -/

/-- Evolution of the `z_index` keyword entry of `kwargs` across
`KittyImage._display_animated`: `some v` means the key is present with
value `v`, `none` that it is absent.  Above kitty 0.25.0 the key is set to
Python `None` (`some none`); otherwise it is deleted. -/
def displayAnimatedZ (kittyVersion : List Int)
    (zIndex : Option (Option Int)) : Option (Option Int) :=
  if pyListLt [0, 25, 0] kittyVersion then some none
  else match zIndex with
       | some _ => none
       | none => none

/-! ## Lemmas about the chunking loop -/

theorem chunkTail_control_none (size : Nat) (chunk rest : List Char) :
    ∀ ch ∈ chunkTail size chunk rest, ch.control = none := by
  induction chunk, rest using chunkTail.induct size with
  | case1 rest h =>
      intro ch hch
      rw [chunkTail, dif_pos h] at hch
      simp at hch
  | case2 chunk rest h hc =>
      intro ch hch
      rw [chunkTail, dif_pos h, if_neg hc, List.mem_singleton] at hch
      subst hch
      rfl
  | case3 chunk rest h ih =>
      intro ch hch
      rw [chunkTail, dif_neg h] at hch
      rcases List.mem_cons.mp hch with hch | hch
      · subst hch; rfl
      · exact ih ch hch

theorem chunkTail_chain (size : Nat) (chunk rest : List Char) :
    List.Chain' (fun c₁ _ => c₁.m = true) (chunkTail size chunk rest) := by
  induction chunk, rest using chunkTail.induct size with
  | case1 rest h => rw [chunkTail, dif_pos h]; simp
  | case2 chunk rest h hc => rw [chunkTail, dif_pos h, if_neg hc]; simp
  | case3 chunk rest h ih =>
      rw [chunkTail, dif_neg h]
      exact List.Chain'.cons' ih (fun _ _ => rfl)

theorem chunkTail_ne_nil (size : Nat) (chunk rest : List Char)
    (hc : chunk ≠ []) : chunkTail size chunk rest ≠ [] := by
  rw [chunkTail]
  split
  · simp [hc]
  · simp

theorem chunkTail_of_take_nil (size : Nat) (rest : List Char)
    (h : rest.take size = []) :
    chunkTail size (rest.take size) (rest.drop size) = [] := by
  rw [h, chunkTail]
  have h2 : ((rest.drop size).take size : List Char) = [] := by
    rcases List.take_eq_nil_iff.mp h with h1 | h1
    · simp [h1]
    · simp [h1]
  simp [h2]

theorem chunkTail_getLast (size : Nat) (chunk rest : List Char) :
    chunk ≠ [] → ∀ last, (chunkTail size chunk rest).getLast? = some last →
      last.m = false ∧ last.data ≠ [] := by
  induction chunk, rest using chunkTail.induct size with
  | case1 rest h =>
      intro hc
      exact absurd rfl hc
  | case2 chunk rest h hc =>
      intro _ last hl
      rw [chunkTail, dif_pos h, if_neg hc] at hl
      simp only [List.getLast?_singleton, Option.some.injEq] at hl
      subst hl
      exact ⟨rfl, hc⟩
  | case3 chunk rest h ih =>
      intro _ last hl
      rw [chunkTail, dif_neg h] at hl
      have hne := chunkTail_ne_nil size (rest.take size) (rest.drop size) h
      rcases htail : chunkTail size (rest.take size) (rest.drop size) with _ | ⟨b, l⟩
      · exact absurd htail hne
      · rw [htail, List.getLast?_cons_cons] at hl
        exact ih h last (htail ▸ hl)

/-- C1 — For every `Transmission`, `get_chunks` yields the full control
data only in the first escape sequence; every chunk that is followed by
another carries `m=1` and the final chunk carries `m=0`; a payload whose
base64 encoding fits in one slice yields exactly one chunk with the flag
unset; and an encoded payload that is an exact positive multiple of the
chunk size ends with a non-empty final chunk carrying `m=0`. -/
theorem get_chunks_spec (tr : Transmission) (size : Nat) (hs : 0 < size) :
    (∃ first rest, tr.get_chunks size = first :: rest ∧
        first.control = some (getControlData tr.control) ∧
        ∀ ch ∈ rest, ch.control = none) ∧
    List.Chain' (fun c₁ _ => c₁.m = true) (tr.get_chunks size) ∧
    (∀ last, (tr.get_chunks size).getLast? = some last → last.m = false) ∧
    ((b64encode tr.payload).length ≤ size →
        ∃ c, tr.get_chunks size = [c] ∧ c.m = false) ∧
    (∀ k, 0 < k → (b64encode tr.payload).length = k * size →
        ∃ last, (tr.get_chunks size).getLast? = some last ∧
          last.m = false ∧ last.data ≠ []) := by
  have hdef : tr.get_chunks size =
      ⟨some (getControlData tr.control),
        !(((b64encode tr.payload).drop size).take size).isEmpty,
        (b64encode tr.payload).take size⟩ ::
      chunkTail size (((b64encode tr.payload).drop size).take size)
        (((b64encode tr.payload).drop size).drop size) := rfl
  refine ⟨?_, ?_, ?_, ?_, ?_⟩
  · exact ⟨_, _, hdef, rfl, chunkTail_control_none size _ _⟩
  · rw [hdef]
    refine List.Chain'.cons' (chunkTail_chain size _ _) (fun y hy => ?_)
    by_cases h : (((b64encode tr.payload).drop size).take size : List Char) = []
    · rw [chunkTail_of_take_nil size _ h] at hy
      simp at hy
    · simp [h]
  · intro last hl
    rw [hdef] at hl
    by_cases h : (((b64encode tr.payload).drop size).take size : List Char) = []
    · rw [chunkTail_of_take_nil size _ h] at hl
      simp only [List.getLast?_singleton, Option.some.injEq] at hl
      subst hl
      simp [h]
    · have hne := chunkTail_ne_nil size _ ((b64encode tr.payload).drop size |>.drop size) h
      rcases htail : chunkTail size (((b64encode tr.payload).drop size).take size)
          (((b64encode tr.payload).drop size).drop size) with _ | ⟨b, l⟩
      · exact absurd htail hne
      · rw [htail, List.getLast?_cons_cons] at hl
        exact (chunkTail_getLast size _ _ h last (htail ▸ hl)).1
  · intro hle
    have hdrop : ((b64encode tr.payload).drop size : List Char) = [] :=
      List.drop_eq_nil_of_le hle
    refine ⟨⟨some (getControlData tr.control), false,
        (b64encode tr.payload).take size⟩, ?_, rfl⟩
    rw [hdef, hdrop]
    simp only [List.take_nil, List.drop_nil]
    have h2 := chunkTail_of_take_nil size ([] : List Char) (by simp)
    simp only [List.take_nil, List.drop_nil] at h2
    rw [h2]
    rfl
  · intro k hk hlen
    have hpos : 0 < (b64encode tr.payload).length := by
      rw [hlen]
      exact Nat.mul_pos hk hs
    by_cases h : (((b64encode tr.payload).drop size).take size : List Char) = []
    · refine ⟨⟨some (getControlData tr.control), false,
          (b64encode tr.payload).take size⟩, ?_, rfl, ?_⟩
      · rw [hdef, chunkTail_of_take_nil size _ h]
        simp [h]
      · have hlen2 : ((b64encode tr.payload).take size).length = size := by
          rw [List.length_take]
          have hsz : size ≤ (b64encode tr.payload).length := by
            rw [hlen]
            calc size = 1 * size := (Nat.one_mul size).symm
            _ ≤ k * size := Nat.mul_le_mul_right size hk
          omega
        intro hnil
        have hnil2 : (b64encode tr.payload).take size = [] := hnil
        rw [hnil2] at hlen2
        simp at hlen2
        omega
    · have hne := chunkTail_ne_nil size _ ((b64encode tr.payload).drop size |>.drop size) h
      rcases htail : chunkTail size (((b64encode tr.payload).drop size).take size)
          (((b64encode tr.payload).drop size).drop size) with _ | ⟨b, l⟩
      · exact absurd htail hne
      · have hlast := chunkTail_getLast size
            (((b64encode tr.payload).drop size).take size)
            (((b64encode tr.payload).drop size).drop size) h
        rcases hl : (b :: l).getLast? with _ | last
        · simp at hl
        · exact ⟨last, by rw [hdef, htail, List.getLast?_cons_cons, hl], hlast last (htail ▸ hl)⟩

/-- Witness for `get_chunks_spec`: a 3-byte payload encodes to 4 base64
characters; with chunk size 4 it fits in one slice, with chunk size 2 its
encoded length is the exact multiple `2 * 2`. -/
theorem get_chunks_spec_witness :
    (∃ c, Transmission.get_chunks 4 ⟨mkControlData, [97, 98, 99], false⟩ = [c] ∧
        c.m = false) ∧
    (∃ last, (Transmission.get_chunks 2
          ⟨mkControlData, [97, 98, 99], false⟩).getLast? = some last ∧
        last.m = false ∧ last.data ≠ []) :=
  ⟨(get_chunks_spec ⟨mkControlData, [97, 98, 99], false⟩ 4 (by decide)).2.2.2.1
      (by decide),
   (get_chunks_spec ⟨mkControlData, [97, 98, 99], false⟩ 2 (by decide)).2.2.2.2
      2 (by decide) (by decide)⟩

/-- C10 — A `Transmission` whose base64-encoded payload is empty still
yields exactly one escape sequence, carrying the full control data, the
continuation flag `m=0` and an empty payload section. -/
theorem get_chunks_empty_payload (cd : ControlData) (b : Bool) (size : Nat) :
    Transmission.get_chunks size ⟨cd, [], b⟩ =
      [⟨some (getControlData cd), false, []⟩] := by
  have hdef : Transmission.get_chunks size ⟨cd, [], b⟩ =
      ⟨some (getControlData cd), !((([] : List Char).drop size).take size).isEmpty,
        ([] : List Char).take size⟩ ::
      chunkTail size ((([] : List Char).drop size).take size)
        ((([] : List Char).drop size).drop size) := rfl
  rw [hdef]
  have := chunkTail_of_take_nil size ([] : List Char) (by simp)
  simp only [List.take_nil, List.drop_nil] at this ⊢
  rw [this]
  rfl

/-! ## The Lines render method -/

theorem readBands_length (bpl : Nat) :
    ∀ (n : Nat) (raw : List Nat), (readBands raw bpl n).length = n := by
  intro n
  induction n with
  | zero => intro raw; rfl
  | succ n ih => intro raw; simp [readBands, ih]

theorem readBands_band_length (bpl : Nat) :
    ∀ (n : Nat) (raw : List Nat), raw.length = n * bpl →
      ∀ b ∈ readBands raw bpl n, b.length = bpl := by
  intro n
  induction n with
  | zero => intro raw _ b hb; simp [readBands] at hb
  | succ n ih =>
      intro raw h b hb
      simp only [readBands, List.mem_cons] at hb
      rcases hb with hb | hb
      · subst hb
        rw [List.length_take]
        have hle : bpl ≤ raw.length := by
          rw [h]
          exact Nat.le_mul_of_pos_left bpl (Nat.succ_pos n)
        omega
      · refine ih (raw.drop bpl) ?_ b hb
        rw [List.length_drop, h, Nat.succ_mul]
        omega

theorem paddedHeight_dvd (h r : Nat) (hr : 1 ≤ r) : r ∣ paddedHeight h r := by
  unfold paddedHeight
  have hr0 : ¬r = 0 := by omega
  simp only [hr0, if_false]
  by_cases he : h % r = 0
  · simp only [he, ne_eq, not_true_eq_false, if_false]
    exact Nat.dvd_of_mod_eq_zero he
  · simp only [ne_eq, he, not_false_eq_true, if_true]
    have h1 : h - h % r = r * (h / r) := by
      have h2 := Nat.mod_add_div h r
      omega
    rw [h1]
    exact dvd_add (Dvd.intro (h / r) rfl) (dvd_refl r)

/-- The control data built by `_render_image` for the render call:
`ControlData(f=format, s=width, c=r_width, z=z_index)`. -/
def renderControlData (w fmt : Nat) (cw : Option Nat) (zi : Option Int) :
    ControlData :=
  mkControlData (f := some fmt) (s := some w) (c := cw) (z := zi)

/-- C2 — Rendering with the Lines method at a row extent `r ≥ 1` after
the height-padding step of `_render_image` produces exactly `r` per-line
transmissions (one chunked escape-sequence group per horizontal band,
successive bands separated by a single newline after the fill), the padded
height divides evenly by `r`, and each band read from the raw pixel stream
has byte length `width * (paddedHeight / r) * (format / 8)`. -/
theorem lines_method_spec (zc : List Nat → List Nat) (raw : List Nat)
    (w fmt h₀ r : Nat) (cw : Option Nat) (zi : Option Int)
    (hr : 1 ≤ r) (hfmt : fmt = 24 ∨ fmt = 32)
    (hlen : raw.length = w * paddedHeight h₀ r * (fmt / 8)) :
    r ∣ paddedHeight h₀ r ∧
    (lineTransmissions zc raw (renderControlData w fmt cw zi)
        (paddedHeight h₀ r) r).length = r ∧
    (∀ tr ∈ lineTransmissions zc raw (renderControlData w fmt cw zi)
        (paddedHeight h₀ r) r,
      ∃ band : List Nat,
        band.length = w * (paddedHeight h₀ r / r) * (fmt / 8) ∧
        tr = mkTransmission zc
          (lineControlData (renderControlData w fmt cw zi)
            (paddedHeight h₀ r / r)) band) ∧
    renderImageLines zc raw (renderControlData w fmt cw zi)
        (paddedHeight h₀ r) r =
      String.intercalate (String.mk (List.replicate (cw.getD 0) ' ') ++ "\n")
        ((lineTransmissions zc raw (renderControlData w fmt cw zi)
            (paddedHeight h₀ r) r).map
          (fun tr => (if zi = none then kittyClearSeq (cw.getD 0) else "") ++
            tr.get_chunked)) ++
      String.mk (List.replicate (cw.getD 0) ' ') := by
  have hdvd : r ∣ paddedHeight h₀ r := paddedHeight_dvd h₀ r hr
  have hbpl : bytesPerLine (renderControlData w fmt cw zi)
      (paddedHeight h₀ r / r) = w * (paddedHeight h₀ r / r) * (fmt / 8) := by
    rcases hfmt with h | h <;> subst h <;> rfl
  have hraw : raw.length = r * (w * (paddedHeight h₀ r / r) * (fmt / 8)) := by
    rw [hlen]
    have hH : r * (paddedHeight h₀ r / r) = paddedHeight h₀ r :=
      Nat.mul_div_cancel' hdvd
    calc w * paddedHeight h₀ r * (fmt / 8)
        = w * (r * (paddedHeight h₀ r / r)) * (fmt / 8) := by rw [hH]
      _ = r * (w * (paddedHeight h₀ r / r) * (fmt / 8)) := by ring
  refine ⟨hdvd, ?_, ?_, ?_⟩
  · unfold lineTransmissions
    rw [List.length_map, readBands_length]
  · intro tr htr
    unfold lineTransmissions at htr
    rcases List.mem_map.mp htr with ⟨band, hband, hmk⟩
    rw [hbpl] at hband
    refine ⟨band, ?_, hmk.symm⟩
    exact readBands_band_length _ r raw (by rw [hraw]) band hband
  · rcases hfmt with h | h <;> subst h <;> rfl

/-- Witness for `lines_method_spec`: a 2×2 RGB image (12 raw bytes) rendered
at 2 rows, giving two 6-byte bands. -/
theorem lines_method_spec_witness :
    (lineTransmissions id [0, 1, 2, 3, 4, 5, 6, 7, 8, 9, 10, 11]
        (renderControlData 2 24 (some 2) (some 0)) (paddedHeight 2 2) 2).length
      = 2 :=
  (lines_method_spec id [0, 1, 2, 3, 4, 5, 6, 7, 8, 9, 10, 11] 2 24 2 2
    (some 2) (some 0) (by decide) (Or.inl rfl) (by decide)).2.1

/-! ## Capability detection -/

/-- A probe response whose part before the last ESC equals the kitty OK
reply (the device-attributes answer follows it). -/
def okProbeResp : String := "\x1b_Gi=31;OK\x1b\\\x1b[?62c"

/-- C3 — Once `is_supported` has stored a result, every further call
returns the cached value, leaves the class state unchanged and writes no
query to the terminal, for both protocol classes. -/
theorem is_supported_cached (st : KittyState) (sti : ITerm2State)
    (pr : String) (idr idr2 : Option (String × String)) (rn : Bool)
    (v : PyBoolish) (b : Bool)
    (hk : st.supported = some v) (hi : sti.supported = some b) :
    KittyImage.is_supported st pr idr = .ok ⟨v, st, 0⟩ ∧
    ITerm2Image.is_supported sti rn idr2 = ⟨some b, sti, 0⟩ := by
  obtain ⟨sup, kv, kov⟩ := st
  obtain ⟨sup2, tm, tv⟩ := sti
  simp only at hk hi
  subst hk
  subst hi
  exact ⟨rfl, rfl⟩

/-- Witness for `is_supported_cached`. -/
theorem is_supported_cached_witness :
    KittyImage.is_supported ⟨some (.pybool true), [0, 26, 0], []⟩ "" none =
      .ok ⟨.pybool true, ⟨some (.pybool true), [0, 26, 0], []⟩, 0⟩ ∧
    ITerm2Image.is_supported ⟨some false, "", ""⟩ true none =
      ⟨some false, ⟨some false, "", ""⟩, 0⟩ :=
  is_supported_cached ⟨some (.pybool true), [0, 26, 0], []⟩
    ⟨some false, "", ""⟩ "" none none true (.pybool true) false rfl rfl

/-- C4 counterexample — A probe that times out with no response at all
IS cached: the first kitty call stores the falsy empty response
(`cls._supported = response and ...` keeps `b""`), the first iTerm2 call
stores `False`, and the immediately following call writes zero queries
instead of issuing a fresh probe. -/
theorem timeout_is_cached_counterexample :
    KittyImage.is_supported ⟨none, [], []⟩ "" none =
      .ok ⟨.emptyBytes, ⟨some .emptyBytes, [], []⟩, 1⟩ ∧
    KittyImage.is_supported ⟨some .emptyBytes, [], []⟩ "" none =
      .ok ⟨.emptyBytes, ⟨some .emptyBytes, [], []⟩, 0⟩ ∧
    ITerm2Image.is_supported ⟨none, "", ""⟩ false none =
      ⟨some false, ⟨some false, "", ""⟩, 1⟩ ∧
    ITerm2Image.is_supported ⟨some false, "", ""⟩ false none =
      ⟨some false, ⟨some false, "", ""⟩, 0⟩ :=
  ⟨rfl, rfl, rfl, rfl⟩

/-- C4 (amended) — An empty (timed-out) response resolves to
unsupported AND is cached like a definitive negative: kitty stores the
falsy empty bytes, iTerm2 stores `False`, and the next call returns the
cached value with no further query. -/
theorem timeout_resolution (st : KittyState) (sti : ITerm2State)
    (idr idr2 idr3 : Option (String × String)) (pr2 : String) (rn2 : Bool)
    (h1 : st.supported = none) (h2 : sti.supported = none) :
    KittyImage.is_supported st "" idr =
      .ok ⟨.emptyBytes, { st with supported := some .emptyBytes }, 1⟩ ∧
    KittyImage.is_supported { st with supported := some .emptyBytes } pr2 idr2 =
      .ok ⟨.emptyBytes, { st with supported := some .emptyBytes }, 0⟩ ∧
    ITerm2Image.is_supported sti false idr3 =
      ⟨some false, { sti with supported := some false }, 1⟩ ∧
    ITerm2Image.is_supported { sti with supported := some false } rn2 idr3 =
      ⟨some false, { sti with supported := some false }, 0⟩ := by
  obtain ⟨sup, kv, kov⟩ := st
  obtain ⟨sup2, tm, tv⟩ := sti
  simp only at h1 h2
  subst h1
  subst h2
  exact ⟨rfl, rfl, rfl, rfl⟩

/-- Witness for `timeout_resolution`. -/
theorem timeout_resolution_witness :
    KittyImage.is_supported ⟨none, [], []⟩ "" none =
      .ok ⟨.emptyBytes, ⟨some .emptyBytes, [], []⟩, 1⟩ :=
  (timeout_resolution ⟨none, [], []⟩ ⟨none, "", ""⟩ none none none "" false
    rfl rfl).1

/-- C5 — After a successful protocol probe, a konsole identification
reply with version `21.08.0` resolves to unsupported (below the `22.4.0`
floor) in both modules, while a konsole reply whose version parses to any
tuple `≥ (22, 4, 0)` resolves to supported in both modules. -/
theorem konsole_version_floor (ver : String) (v : List Int)
    (hp : parseVersion ver = some v) (hge : pyListGe v [22, 4, 0] = true) :
    KittyImage.is_supported ⟨none, [], []⟩ okProbeResp (some ("konsole", ver)) =
      .ok ⟨.pybool true, ⟨some (.pybool true), [], v⟩, 2⟩ ∧
    ITerm2Image.is_supported ⟨none, "", ""⟩ true (some ("konsole", ver)) =
      ⟨some true, ⟨some true, "konsole", pyLower ver⟩, 1⟩ ∧
    KittyImage.is_supported ⟨none, [], []⟩ okProbeResp
        (some ("konsole", "21.08.0")) =
      .ok ⟨.pybool false, ⟨some (.pybool false), [], [21, 8, 0]⟩, 2⟩ ∧
    ITerm2Image.is_supported ⟨none, "", ""⟩ true (some ("konsole", "21.08.0")) =
      ⟨some false, ⟨some false, "", ""⟩, 1⟩ := by
  have hlt : pyListLt v [22, 4, 0] = false := by
    unfold pyListGe at hge
    rcases h : pyListLt v [22, 4, 0] with _ | _
    · rfl
    · rw [h] at hge; simp at hge
  refine ⟨?_, ?_, by decide, by decide⟩
  · show KittyImage.is_supported _ _ _ = _
    unfold KittyImage.is_supported
    simp only [hp]
    have hprobe : (if (okProbeResp = "") then PyBoolish.emptyBytes
        else .pybool (String.mk (beforeLastEsc okProbeResp.toList) =
          kittyExpectedOk)) = .pybool true := by decide
    simp only [hprobe]
    have hname1 : (pyLower "konsole" = "kitty") = False := by decide
    have hname2 : (pyLower "konsole" = "konsole") = True := by decide
    simp only [hname1, hname2, if_true, if_false, PyBoolish.truthy]
    have : pyListGe ([] : List Int) [0, 20, 0] = false := by decide
    simp [this, pyListGe, hlt]
  · show ITerm2Image.is_supported _ _ _ = _
    unfold ITerm2Image.is_supported
    simp only [hp]
    have hmem : (pyLower "konsole" ∈ ["iterm2", "konsole", "wezterm"]) = True := by
      decide
    have hname : (pyLower "konsole" = "konsole") = True := by decide
    simp [hmem, hname, hlt]

/-- Witness for `konsole_version_floor` at version `22.04.0`. -/
theorem konsole_version_floor_witness :
    ITerm2Image.is_supported ⟨none, "", ""⟩ true (some ("konsole", "22.04.0")) =
      ⟨some true, ⟨some true, "konsole", "22.04.0"⟩, 1⟩ :=
  (konsole_version_floor "22.04.0" [22, 4, 0] (by decide) (by decide)).2.1

/-- C6 counterexample — In the kitty module an identification reply
naming kitty with an unparseable version string raises an uncaught
`ValueError` (there is no `try`/`except` around `tuple(map(int, ...))`),
contradicting the claim that both protocols fail safe. -/
theorem unparseable_version_counterexample :
    KittyImage.is_supported ⟨none, [], []⟩ okProbeResp (some ("kitty", "x")) =
      .raised := by decide

/-- C6 (amended) — An unparseable version is fail-safe only in the
iTerm2 module and only for a konsole reply (resolving to cached
unsupported); in the kitty module the parse failure propagates as an
exception for both kitty and konsole replies. -/
theorem unparseable_version (sti : ITerm2State) (ver : String)
    (h0 : sti.supported = none) (hp : parseVersion ver = none) :
    ITerm2Image.is_supported sti true (some ("konsole", ver)) =
      ⟨some false, { sti with supported := some false }, 1⟩ ∧
    KittyImage.is_supported ⟨none, [], []⟩ okProbeResp (some ("kitty", ver)) =
      .raised ∧
    KittyImage.is_supported ⟨none, [], []⟩ okProbeResp (some ("konsole", ver)) =
      .raised := by
  refine ⟨?_, ?_, ?_⟩
  · obtain ⟨sup2, tm, tv⟩ := sti
    simp only at h0
    subst h0
    unfold ITerm2Image.is_supported
    simp only [hp]
    have hmem : (pyLower "konsole" ∈ ["iterm2", "konsole", "wezterm"]) = True := by
      decide
    have hname : (pyLower "konsole" = "konsole") = True := by decide
    simp [hmem, hname]
  · unfold KittyImage.is_supported
    simp only [hp]
    have hprobe : (if (okProbeResp = "") then PyBoolish.emptyBytes
        else .pybool (String.mk (beforeLastEsc okProbeResp.toList) =
          kittyExpectedOk)) = .pybool true := by decide
    simp only [hprobe]
    have hname1 : (pyLower "kitty" = "kitty") = True := by decide
    simp [hname1, PyBoolish.truthy]
  · unfold KittyImage.is_supported
    simp only [hp]
    have hprobe : (if (okProbeResp = "") then PyBoolish.emptyBytes
        else .pybool (String.mk (beforeLastEsc okProbeResp.toList) =
          kittyExpectedOk)) = .pybool true := by decide
    simp only [hprobe]
    have hname1 : (pyLower "konsole" = "kitty") = False := by decide
    have hname2 : (pyLower "konsole" = "konsole") = True := by decide
    simp [hname1, hname2, PyBoolish.truthy]

/-- Witness for `unparseable_version`. -/
theorem unparseable_version_witness :
    ITerm2Image.is_supported ⟨none, "", ""⟩ true (some ("konsole", "x")) =
      ⟨some false, ⟨some false, "", ""⟩, 1⟩ :=
  (unparseable_version ⟨none, "", ""⟩ "x" rfl (by decide)).1

/-! ## Control-data serialization -/

theorem filterMap_keys_sublist {α β : Type} (l : List (α × Option β)) :
    (l.filterMap (fun kv => kv.2.map (fun _ => kv.1))).Sublist
      (l.map Prod.fst) := by
  induction l with
  | nil => simp
  | cons kv tl ih =>
      rcases kv with ⟨k, v⟩
      cases v with
      | none => simpa using ih.cons k
      | some val => simpa using ih.cons₂ k

/-- C7 — Serialization emits the keys in the one fixed order
`a,f,t,s,v,z,o,C,c,r` (the emitted keys are a sublist of that order); a
key is emitted exactly when its value is present (`None` keys are never
emitted); and constructing a `ControlData` with the PNG container format
`f=100` forces the `s` and `v` keys to be absent from the output. -/
theorem control_data_serialization (a₀ : Option String) (f₀ : Option Nat)
    (t₀ : Option String) (s₀ v₀ : Option Nat) (z₀ : Option Int)
    (o₀ : Option String) (C₀ c₀ r₀ : Option Nat) :
    (emittedKeys (mkControlData a₀ f₀ t₀ s₀ v₀ z₀ o₀ C₀ c₀ r₀)).Sublist
      ["a", "f", "t", "s", "v", "z", "o", "C", "c", "r"] ∧
    (∀ k, k ∈ emittedKeys (mkControlData a₀ f₀ t₀ s₀ v₀ z₀ o₀ C₀ c₀ r₀) ↔
      ∃ val, (k, some val) ∈
        controlPairs (mkControlData a₀ f₀ t₀ s₀ v₀ z₀ o₀ C₀ c₀ r₀)) ∧
    (f₀ = some 100 →
      "s" ∉ emittedKeys (mkControlData a₀ f₀ t₀ s₀ v₀ z₀ o₀ C₀ c₀ r₀) ∧
      "v" ∉ emittedKeys (mkControlData a₀ f₀ t₀ s₀ v₀ z₀ o₀ C₀ c₀ r₀)) := by
  have hmem : ∀ (cd : ControlData) (k : String),
      k ∈ emittedKeys cd ↔ ∃ val, (k, some val) ∈ controlPairs cd := by
    intro cd k
    unfold emittedKeys
    rw [List.mem_filterMap]
    constructor
    · rintro ⟨⟨k', v'⟩, hin, hf⟩
      cases v' with
      | none => simp at hf
      | some val =>
          simp only [Option.map_some', Option.some.injEq] at hf
          subst hf
          exact ⟨val, hin⟩
    · rintro ⟨val, hin⟩
      exact ⟨(k, some val), hin, rfl⟩
  refine ⟨?_, hmem _, ?_⟩
  · have h := filterMap_keys_sublist
      (controlPairs (mkControlData a₀ f₀ t₀ s₀ v₀ z₀ o₀ C₀ c₀ r₀))
    have hkeys :
        (controlPairs (mkControlData a₀ f₀ t₀ s₀ v₀ z₀ o₀ C₀ c₀ r₀)).map
          Prod.fst = ["a", "f", "t", "s", "v", "z", "o", "C", "c", "r"] := rfl
    rw [hkeys] at h
    exact h
  · intro hf
    subst hf
    constructor
    · rw [hmem]
      rintro ⟨val, hin⟩
      simp [controlPairs, mkControlData, postInit] at hin
    · rw [hmem]
      rintro ⟨val, hin⟩
      simp [controlPairs, mkControlData, postInit] at hin

/-- Witness for `control_data_serialization`: with PNG format the width
key is absent. -/
theorem control_data_serialization_witness :
    "s" ∉ emittedKeys (mkControlData (some "T") (some 100) (some "d")
      (some 3) (some 7) (some 0) (some "z") (some 1) none none) :=
  ((control_data_serialization (some "T") (some 100) (some "d") (some 3)
    (some 7) (some 0) (some "z") (some 1) none none).2.2 rfl).1

/-! ## Compression guards -/

/-- C8 — `compress` transforms the payload only for a direct-medium,
not-yet-compressed transmission and is a no-op otherwise (so compressing
twice equals compressing once); `decompress` is likewise a no-op unless
the medium is direct and the payload compressed; and for a direct-medium
transmission as constructed, `decompress` after `compress` restores the
constructor payload (given that `zlib.decompress` inverts
`zlib.compress`). -/
theorem compression_guards (zc zd : List Nat → List Nat)
    (hround : ∀ p, zd (zc p) = p) :
    (∀ tr : Transmission, (tr.compress zc).compress zc = tr.compress zc) ∧
    (∀ tr : Transmission,
      (tr.decompress zd).decompress zd = tr.decompress zd) ∧
    (∀ tr : Transmission, tr.control.t ≠ some "d" →
      tr.compress zc = tr ∧ tr.decompress zd = tr) ∧
    (∀ tr : Transmission, tr.compressed = true → tr.compress zc = tr) ∧
    (∀ tr : Transmission, tr.compressed = false → tr.decompress zd = tr) ∧
    (∀ (cd : ControlData) (p : List Nat), cd.t = some "d" →
      (((mkTransmission zc cd p).compress zc).decompress zd).payload = p) := by
  refine ⟨?_, ?_, ?_, ?_, ?_, ?_⟩
  · intro tr
    unfold Transmission.compress
    by_cases h : tr.control.t = some "d" ∧ tr.compressed = false
    · rw [if_pos h]
      simp
    · rw [if_neg h, if_neg h]
  · intro tr
    unfold Transmission.decompress
    by_cases h : tr.control.t = some "d" ∧ tr.compressed = true
    · rw [if_pos h]
      simp
    · rw [if_neg h, if_neg h]
  · intro tr h
    constructor
    · unfold Transmission.compress
      rw [if_neg (by tauto)]
    · unfold Transmission.decompress
      rw [if_neg (by tauto)]
  · intro tr h
    unfold Transmission.compress
    rw [if_neg (by simp [h])]
  · intro tr h
    unfold Transmission.decompress
    rw [if_neg (by simp [h])]
  · intro cd p hd
    unfold mkTransmission
    by_cases ho : cd.o = some "z"
    · rw [if_pos ho]
      simp [Transmission.compress, Transmission.decompress, hd, hround]
    · rw [if_neg ho]
      simp [Transmission.compress, Transmission.decompress, hd, hround]

/-- Witness for `compression_guards` with the identity as the
compressor/decompressor pair. -/
theorem compression_guards_witness :
    (((mkTransmission id mkControlData [1, 2, 3]).compress id).decompress
      id).payload = [1, 2, 3] :=
  (compression_guards id id (fun _ => rfl)).2.2.2.2.2 mkControlData [1, 2, 3]
    rfl

/-! ## Animation z-index -/

/-- C9 — During animation the z-index keyword is passed as the
delete-overlapping sentinel `None` exactly when the detected kitty version
is strictly above `0.25.0`; at or below that threshold (including when no
kitty version was detected) the argument is dropped from the per-frame
draw parameters entirely. -/
theorem display_animated_z_index (ver : List Int) (kw : Option (Option Int)) :
    (displayAnimatedZ ver kw = some none ↔ pyListLt [0, 25, 0] ver = true) ∧
    (pyListLt [0, 25, 0] ver = false → displayAnimatedZ ver kw = none) := by
  unfold displayAnimatedZ
  by_cases h : pyListLt [0, 25, 0] ver = true
  · simp [h]
  · rw [Bool.not_eq_true] at h
    rw [h]
    simp only [Bool.false_eq_true, if_false]
    cases kw <;> simp

/-- Witness for `display_animated_z_index`: at exactly kitty 0.25.0 the
argument is dropped. -/
theorem display_animated_z_index_witness :
    displayAnimatedZ [0, 25, 0] (some (some 5)) = none :=
  (display_animated_z_index [0, 25, 0] (some (some 5))).2 (by decide)

end TermImage
